import Mathlib

/-!
Verification of the ledger logic of the offline expense tracker (`app.py`).

The backing spreadsheet is modelled as an explicit `Store` value holding the
three tables (Transactions, Accounts, Categories) as lists of rows, in
insertion order.  Python floats are modelled as exact rationals, and the
file-system / pandas effects of each operation are modelled by explicit state
passing: an operation that raises in Python returns `Except.error` here
without producing a new store.
-/

/-- A row of the Accounts sheet: columns name, type, currency, balance
(`DataManager.add_account`, `check_files`). -/
structure AccountRow where
  name : String
  acc_type : String
  currency : String
  balance : ℚ
deriving DecidableEq, Repr

/-- A row of the Transactions sheet: columns id, date, note, account,
category, amount, type (`DataManager.add_transaction`, `check_files`). -/
structure TransactionRow where
  id : ℕ
  date : String
  note : String
  account : String
  category : String
  amount : ℚ
  t_type : String
deriving DecidableEq, Repr

/-- A row of the Categories sheet: columns category_name, type
(`DataManager.add_category`, `check_files`). -/
structure CategoryRow where
  category_name : String
  cat_type : String
deriving DecidableEq, Repr

/-- The whole backing store: the three sheets of the Excel file. -/
structure Store where
  transactions : List TransactionRow
  accounts : List AccountRow
  categories : List CategoryRow
deriving DecidableEq, Repr

/-- The empty store created by `DataManager.check_files` when the file is
absent: three sheets with headers only. -/
def emptyStore : Store := ⟨[], [], []⟩

/-- Errors raised by the transaction path.  `AccountNotFound` models the
`IndexError` raised by `dfa.index[dfa["name"]==account].to_list()[0]` on a
missing account; `InsufficientBalance` models the early `return` after
printing "Insuficient balance"; `CategoryNotFound` models the early `return`
in `FinanceApp.save_transaction` when the category lookup is empty. -/
inductive TxError where
  | AccountNotFound
  | CategoryNotFound
  | InsufficientBalance
deriving DecidableEq, Repr

/-- Sets the balance column of the first Accounts row whose name matches,
modelling `dfa.at[acc_index, "balance"] = current_balance` where
`acc_index` is the first index with `dfa["name"] == account`. -/
def updateBalance (l : List AccountRow) (n : String) (b : ℚ) : List AccountRow :=
  match l with
  | [] => []
  | a :: rest =>
    if a.name == n then { a with balance := b } :: rest
    else a :: updateBalance rest n b

/-- The successful tail of `DataManager.add_transaction`: build the new row
with id = len(df) + 1, append it to the Transactions sheet, and write the
new balance into the first matching Accounts row. -/
def commitTx (s : Store) (date note account category : String) (amount : ℚ)
    (t_type : String) (newBalance : ℚ) : Store :=
  { s with
    transactions := s.transactions ++
      [⟨s.transactions.length + 1, date, note, account, category, amount, t_type⟩],
    accounts := updateBalance s.accounts account newBalance }

/-- `DataManager.add_transaction`: look up the first Accounts row named
`account` (raises on a missing account), then on `t_type == "Expense"`
reject when `balance - amount < 0` and otherwise subtract, and on any other
type add; finally append the row and write back both sheets. -/
def add_transaction (s : Store) (date note account category : String) (amount : ℚ)
    (t_type : String) : Except TxError Store :=
  match s.accounts.find? (fun x => x.name == account) with
  | none => Except.error TxError.AccountNotFound
  | some acc =>
    if t_type == "Expense" then
      if acc.balance - amount < 0 then
        Except.error TxError.InsufficientBalance
      else
        Except.ok (commitTx s date note account category amount t_type (acc.balance - amount))
    else
      Except.ok (commitTx s date note account category amount t_type (acc.balance + amount))

/-- `DataManager.get_summary`: income and expense are the sums of the amount
column over Income resp. Expense typed transactions (0 on an empty sheet),
total is the sum of the balance column of Accounts (0 on an empty sheet). -/
def get_summary (s : Store) : ℚ × ℚ × ℚ :=
  let income := if s.transactions.isEmpty then 0
    else ((s.transactions.filter (fun t => t.t_type == "Income")).map
      TransactionRow.amount).sum
  let expense := if s.transactions.isEmpty then 0
    else ((s.transactions.filter (fun t => t.t_type == "Expense")).map
      TransactionRow.amount).sum
  let total := if s.accounts.isEmpty then 0
    else (s.accounts.map AccountRow.balance).sum
  (total, income, expense)

/-- `FinanceApp.save_transaction` (the record-transaction entry point): look
up the category's type in the Categories sheet; if no row matches, report
"Error: Category not found" and stop; otherwise call
`DataManager.add_transaction` with the type copied from the category. -/
def save_transaction (s : Store) (date note account category : String) (amount : ℚ) :
    Except TxError Store :=
  match s.categories.find? (fun c => c.category_name == category) with
  | none => Except.error TxError.CategoryNotFound
  | some c => add_transaction s date note account category amount c.cat_type

/-- One call to `add_transaction`, as the GUI would issue it. -/
structure TxRequest where
  date : String
  note : String
  account : String
  category : String
  amount : ℚ
  t_type : String
deriving DecidableEq, Repr

/-- Runs a sequence of `add_transaction` calls, stopping at the first
failure. -/
def runTxs (s : Store) (rs : List TxRequest) : Except TxError Store :=
  match rs with
  | [] => Except.ok s
  | r :: rest =>
    match add_transaction s r.date r.note r.account r.category r.amount r.t_type with
    | Except.error e => Except.error e
    | Except.ok s1 => runTxs s1 rest

/-- Sum of the amounts of the Income requests against account `n`. -/
def incomeSum (n : String) (rs : List TxRequest) : ℚ :=
  ((rs.filter (fun r => r.account == n && r.t_type == "Income")).map
    TxRequest.amount).sum

/-- Sum of the amounts of the Expense requests against account `n`. -/
def expenseSum (n : String) (rs : List TxRequest) : ℚ :=
  ((rs.filter (fun r => r.account == n && r.t_type == "Expense")).map
    TxRequest.amount).sum

/-- The error reported by `FinanceApp.clear_data` when `os.remove` raises
`PermissionError` because the Excel file is open elsewhere. -/
inductive ResetError where
  | StoreLocked
deriving DecidableEq, Repr

/-- `FinanceApp.clear_data`: the backing file is modelled as
`Option Store` (`none` = file absent) together with a `locked` flag saying
whether `os.remove` would raise `PermissionError`.  If the file exists and
is locked, the remove fails and the routine returns with the file untouched;
otherwise the file is deleted (or was absent) and `check_files` recreates
the three empty sheets.  The result pairs the resulting file state with the
reported error, if any. -/
def clear_data (file : Option Store) (locked : Bool) :
    Option Store × Option ResetError :=
  match file with
  | some st =>
    if locked then (some st, some ResetError.StoreLocked)
    else (some emptyStore, none)
  | none => (some emptyStore, none)

/-- The state of the rate-cache file `RATES_FILE`.  `malformed` models a
file whose contents `json.load` cannot parse, or that lacks the `timestamp`
or `rates` keys (those reads happen outside any `try` in
`CurrencyManager.get_rates`). -/
inductive CacheFile where
  | absent
  | malformed
  | valid (timestamp : ℚ) (rates : List (String × ℚ))
deriving DecidableEq, Repr

/-- The outcome of `requests.get(CURRENCY_API)` followed by
`response.json()["rates"]`: either a parsed rate mapping, or any network,
JSON or key failure (all caught by the bare `except`). -/
inductive FetchOutcome where
  | ok (rates : List (String × ℚ))
  | failure
deriving DecidableEq, Repr

/-- The exception escaping `get_rates` when the cache file is unreadable. -/
inductive RatesError where
  | CacheParseError
deriving DecidableEq, Repr

/-- What a `get_rates` call produced: the returned mapping, the resulting
state of the cache file, and whether a network fetch was attempted. -/
structure RatesResult where
  rates : List (String × ℚ)
  cache : CacheFile
  fetched : Bool
deriving DecidableEq, Repr

/-- The hard-coded offline fallback `{TRY: 40.0, USD: 1.0, EUR: 0.9}`. -/
def fallbackRates : List (String × ℚ) :=
  [("TRY", 40), ("USD", 1), ("EUR", 9/10)]

/-- `rates["USD"] = 1.0`: overwrite the USD entry if present, else append
it. -/
def setRate (rates : List (String × ℚ)) (k : String) (v : ℚ) :
    List (String × ℚ) :=
  if rates.any (fun p => p.1 == k) then
    rates.map (fun p => if p.1 == k then (k, v) else p)
  else rates ++ [(k, v)]

/-- The fetch branch of `get_rates`: on success inject `USD = 1.0`, write
the cache file with the current timestamp, and return the rates; on any
failure return the fallback mapping and leave the cache file unchanged. -/
def fetchStep (cache : CacheFile) (now : ℚ) (fetch : FetchOutcome) :
    Except RatesError RatesResult :=
  match fetch with
  | FetchOutcome.ok rs =>
    let rs1 := setRate rs "USD" 1
    Except.ok ⟨rs1, CacheFile.valid now rs1, true⟩
  | FetchOutcome.failure => Except.ok ⟨fallbackRates, cache, true⟩

/-- `CurrencyManager.get_rates`: if the cache file exists, parse it (a
malformed file raises to the caller, since `json.load` and the key lookups
are outside the `try`); if `now - timestamp < 86400` return the cached
mapping without fetching; otherwise, and when the file is absent, run the
fetch branch. -/
def get_rates (cache : CacheFile) (now : ℚ) (fetch : FetchOutcome) :
    Except RatesError RatesResult :=
  match cache with
  | CacheFile.malformed => Except.error RatesError.CacheParseError
  | CacheFile.valid ts rates =>
    if now - ts < 86400 then Except.ok ⟨rates, CacheFile.valid ts rates, false⟩
    else fetchStep (CacheFile.valid ts rates) now fetch
  | CacheFile.absent => fetchStep CacheFile.absent now fetch

/-! ### Helper lemmas about account lookup and balance update -/

theorem find_updateBalance_self (l : List AccountRow) (n : String) (b : ℚ)
    (a : AccountRow) (h : l.find? (fun x => x.name == n) = some a) :
    (updateBalance l n b).find? (fun x => x.name == n) =
      some { a with balance := b } := by
  induction l with
  | nil => simp at h
  | cons x rest ih =>
    by_cases hx : x.name = n
    · rw [List.find?_cons_of_pos _ (by simp [hx])] at h
      injection h with h
      subst h
      unfold updateBalance
      rw [if_pos (by simp [hx])]
      exact List.find?_cons_of_pos _ (by simp [hx])
    · rw [List.find?_cons_of_neg _ (by simp [hx])] at h
      unfold updateBalance
      rw [if_neg (by simp [hx])]
      rw [List.find?_cons_of_neg _ (by simp [hx])]
      exact ih h

theorem find_updateBalance_other (l : List AccountRow) (m n : String) (b : ℚ)
    (hne : n ≠ m) :
    (updateBalance l m b).find? (fun x => x.name == n) =
      l.find? (fun x => x.name == n) := by
  induction l with
  | nil => rfl
  | cons x rest ih =>
    by_cases hx : x.name = m
    · unfold updateBalance
      rw [if_pos (by simp [hx])]
      have hxn : ¬ x.name = n := by
        intro hc
        exact hne (hc ▸ hx ▸ rfl)
      rw [List.find?_cons_of_neg _ (by simp [hxn]),
        List.find?_cons_of_neg _ (by simp [hxn])]
    · unfold updateBalance
      rw [if_neg (by simp [hx])]
      by_cases hxn : x.name = n
      · rw [List.find?_cons_of_pos _ (by simp [hxn]),
          List.find?_cons_of_pos _ (by simp [hxn])]
      · rw [List.find?_cons_of_neg _ (by simp [hxn]),
          List.find?_cons_of_neg _ (by simp [hxn])]
        exact ih

/-! ### Claims about rejection paths -/

/-- Claim C3: recording a transaction against an account name that is not in
the Accounts table fails with AccountNotFound (the reference raises on the
missing index) and, producing no new store, leaves all tables unchanged. -/
theorem add_transaction_account_missing (s : Store)
    (date note account category : String) (amount : ℚ) (t_type : String)
    (hfind : s.accounts.find? (fun x => x.name == account) = none) :
    add_transaction s date note account category amount t_type =
      Except.error TxError.AccountNotFound := by
  unfold add_transaction
  rw [hfind]

theorem add_transaction_account_missing_witness :
    add_transaction ⟨[], [], []⟩ "2025-01-01" "" "Cash" "Food" 5 "Expense" =
      Except.error TxError.AccountNotFound :=
  add_transaction_account_missing ⟨[], [], []⟩ "2025-01-01" "" "Cash" "Food" 5
    "Expense" rfl

/-- Claim C2: an Expense whose amount exceeds the current balance of the
(first matching) account row is rejected with InsufficientBalance; no new
store is produced, so no transaction row is appended and no balance
changes. -/
theorem add_transaction_insufficient (s : Store)
    (date note account category : String) (amount : ℚ) (a : AccountRow)
    (hfind : s.accounts.find? (fun x => x.name == account) = some a)
    (hlt : a.balance < amount) :
    add_transaction s date note account category amount "Expense" =
      Except.error TxError.InsufficientBalance := by
  unfold add_transaction
  rw [hfind]
  dsimp only
  rw [if_pos (by simp), if_pos (by linarith)]

theorem add_transaction_insufficient_witness :
    add_transaction ⟨[], [⟨"Cash", "Cash", "USD", 10⟩], []⟩
        "2025-01-01" "" "Cash" "Food" 20 "Expense" =
      Except.error TxError.InsufficientBalance :=
  add_transaction_insufficient ⟨[], [⟨"Cash", "Cash", "USD", 10⟩], []⟩
    "2025-01-01" "" "Cash" "Food" 20 ⟨"Cash", "Cash", "USD", 10⟩ rfl
    (by norm_num)

/-- Claim C5: recording a transaction whose category name is not in the
Categories table fails with CategoryNotFound before `add_transaction` is
ever reached; no new store is produced, so no row is written and no balance
changes. -/
theorem save_transaction_category_missing (s : Store)
    (date note account category : String) (amount : ℚ)
    (hfind : s.categories.find? (fun c => c.category_name == category) = none) :
    save_transaction s date note account category amount =
      Except.error TxError.CategoryNotFound := by
  unfold save_transaction
  rw [hfind]

theorem save_transaction_category_missing_witness :
    save_transaction ⟨[], [⟨"Cash", "Cash", "USD", 10⟩], []⟩
        "2025-01-01" "" "Cash" "Ghost" 5 =
      Except.error TxError.CategoryNotFound :=
  save_transaction_category_missing ⟨[], [⟨"Cash", "Cash", "USD", 10⟩], []⟩
    "2025-01-01" "" "Cash" "Ghost" 5 rfl

/-! ### Claims about the success path -/

/-- Claim C8: every successful `add_transaction` appends exactly one row
whose id is the previous transaction count plus one, sets the first matching
account row's balance to balance - amount for an Expense and
balance + amount otherwise, and leaves the Categories sheet unchanged. -/
theorem add_transaction_success_shape (s s' : Store)
    (date note account category : String) (amount : ℚ) (t_type : String)
    (a : AccountRow)
    (hfind : s.accounts.find? (fun x => x.name == account) = some a)
    (h : add_transaction s date note account category amount t_type = Except.ok s') :
    s'.transactions = s.transactions ++
      [⟨s.transactions.length + 1, date, note, account, category, amount, t_type⟩] ∧
    s'.accounts.find? (fun x => x.name == account) =
      some { a with balance :=
        if t_type == "Expense" then a.balance - amount else a.balance + amount } ∧
    s'.categories = s.categories := by
  unfold add_transaction at h
  rw [hfind] at h
  dsimp only at h
  by_cases ht : (t_type == "Expense") = true
  · rw [if_pos ht] at h
    by_cases hb : a.balance - amount < 0
    · rw [if_pos hb] at h
      exact Except.noConfusion h
    · rw [if_neg hb] at h
      injection h with h
      subst h
      refine ⟨rfl, ?_, rfl⟩
      rw [if_pos ht]
      exact find_updateBalance_self s.accounts account (a.balance - amount) a hfind
  · rw [if_neg ht] at h
    injection h with h
    subst h
    refine ⟨rfl, ?_, rfl⟩
    rw [if_neg ht]
    exact find_updateBalance_self s.accounts account (a.balance + amount) a hfind

theorem add_transaction_success_shape_witness :
    (commitTx ⟨[], [⟨"Cash", "Cash", "USD", 100⟩], []⟩
        "2025-01-01" "" "Cash" "Salary" 50 "Income" (100 + 50)).accounts.find?
      (fun x => x.name == "Cash") = some ⟨"Cash", "Cash", "USD", 150⟩ := by
  have h := add_transaction_success_shape
    ⟨[], [⟨"Cash", "Cash", "USD", 100⟩], []⟩
    (commitTx ⟨[], [⟨"Cash", "Cash", "USD", 100⟩], []⟩
      "2025-01-01" "" "Cash" "Salary" 50 "Income" (100 + 50))
    "2025-01-01" "" "Cash" "Salary" 50 "Income"
    ⟨"Cash", "Cash", "USD", 100⟩ rfl rfl
  refine h.2.1.trans ?_
  rw [if_neg (by decide)]
  norm_num

/-- Claim C10: `add_transaction` never validates the type string: any type
other than the exact string "Expense" takes the addition branch, so the
amount is added to the balance and the row is written with that type
string. -/
theorem add_transaction_arbitrary_type (s : Store)
    (date note account category : String) (amount : ℚ) (t_type : String)
    (a : AccountRow)
    (hfind : s.accounts.find? (fun x => x.name == account) = some a)
    (hty : t_type ≠ "Expense") :
    add_transaction s date note account category amount t_type =
      Except.ok { s with
        transactions := s.transactions ++
          [⟨s.transactions.length + 1, date, note, account, category, amount, t_type⟩],
        accounts := updateBalance s.accounts account (a.balance + amount) } := by
  unfold add_transaction
  rw [hfind]
  dsimp only
  rw [if_neg (by simp [hty])]
  rfl

theorem add_transaction_arbitrary_type_witness :
    add_transaction ⟨[], [⟨"Cash", "Cash", "USD", 100⟩], []⟩
        "2025-01-01" "" "Cash" "Stuff" 7 "Incme" =
      Except.ok ⟨[⟨1, "2025-01-01", "", "Cash", "Stuff", 7, "Incme"⟩],
        [⟨"Cash", "Cash", "USD", 107⟩], []⟩ := by
  have h := add_transaction_arbitrary_type
    ⟨[], [⟨"Cash", "Cash", "USD", 100⟩], []⟩
    "2025-01-01" "" "Cash" "Stuff" 7 "Incme"
    ⟨"Cash", "Cash", "USD", 100⟩ rfl (by decide)
  exact h.trans (by norm_num [updateBalance])

/-! ### Summary and reset claims -/

/-- Claim C4: `get_summary` returns (total, income, expense) with total the
sum of the Accounts balance column, income and expense the sums of the
amount column over Income resp. Expense typed transactions, and it returns
(0, 0, 0) on the empty store. -/
theorem get_summary_spec (s : Store) :
    get_summary s = ((s.accounts.map AccountRow.balance).sum,
      ((s.transactions.filter (fun t => t.t_type == "Income")).map
        TransactionRow.amount).sum,
      ((s.transactions.filter (fun t => t.t_type == "Expense")).map
        TransactionRow.amount).sum) ∧
    get_summary emptyStore = (0, 0, 0) := by
  refine ⟨?_, rfl⟩
  rcases s with ⟨ts, accs, cats⟩
  cases ts <;> cases accs <;> simp [get_summary]

/-- Claim C9: `clear_data` deletes the backing file and recreates the three
empty sheets; when the existing file is locked (os.remove raises
PermissionError) it reports the failure and leaves the file untouched. -/
theorem clear_data_spec (file : Option Store) (locked : Bool) :
    (∀ st, file = some st → locked = true →
      clear_data file locked = (some st, some ResetError.StoreLocked)) ∧
    (locked = false → clear_data file locked = (some emptyStore, none)) ∧
    (file = none → clear_data file locked = (some emptyStore, none)) := by
  refine ⟨?_, ?_, ?_⟩
  · rintro st rfl rfl
    rfl
  · rintro rfl
    cases file <;> rfl
  · rintro rfl
    rfl

theorem clear_data_spec_witness :
    clear_data (some emptyStore) true = (some emptyStore, some ResetError.StoreLocked) :=
  (clear_data_spec (some emptyStore) true).1 emptyStore rfl rfl

/-! ### Rate-cache claims -/

/-- Claim C6 is false as stated: with a malformed cache file present,
`json.load` (and the `timestamp` / `rates` key reads) run outside the
`try`, so `get_rates` raises to its caller instead of returning a
mapping. -/
theorem get_rates_raises_on_malformed_cache :
    get_rates CacheFile.malformed 0 FetchOutcome.failure =
      Except.error RatesError.CacheParseError := rfl

/-- Claim C6 (amended): provided the cache file, when present, is
well-formed JSON carrying the timestamp and rates keys, `get_rates` never
raises: for every such cache state, every current time and every fetch
outcome it returns some rate mapping. -/
theorem get_rates_total_unless_malformed (cache : CacheFile) (now : ℚ)
    (fetch : FetchOutcome) (h : cache ≠ CacheFile.malformed) :
    (get_rates cache now fetch).isOk = true := by
  cases cache with
  | malformed => exact absurd rfl h
  | absent => cases fetch <;> rfl
  | valid ts rates =>
    unfold get_rates
    dsimp only
    by_cases hf : now - ts < 86400
    · rw [if_pos hf]
      rfl
    · rw [if_neg hf]
      cases fetch <;> rfl

theorem get_rates_total_unless_malformed_witness :
    (get_rates CacheFile.absent 0 FetchOutcome.failure).isOk = true :=
  get_rates_total_unless_malformed CacheFile.absent 0 FetchOutcome.failure
    (by decide)

/-- Claim C7: with a well-formed cache file, `get_rates` returns the cached
mapping without fetching exactly when `now - timestamp < 86400`; with a
stale or absent cache it attempts a fetch, and on fetch or parse failure it
returns exactly the fallback mapping TRY 40.0, USD 1.0, EUR 0.9 and leaves
the cache file unchanged. -/
theorem get_rates_cache_policy (ts now : ℚ) (rates : List (String × ℚ))
    (fetch : FetchOutcome) :
    (now - ts < 86400 →
      get_rates (CacheFile.valid ts rates) now fetch =
        Except.ok ⟨rates, CacheFile.valid ts rates, false⟩) ∧
    (¬ now - ts < 86400 →
      Except.map RatesResult.fetched (get_rates (CacheFile.valid ts rates) now fetch) =
        Except.ok true ∧
      (fetch = FetchOutcome.failure →
        get_rates (CacheFile.valid ts rates) now fetch =
          Except.ok ⟨fallbackRates, CacheFile.valid ts rates, true⟩)) ∧
    (Except.map RatesResult.fetched (get_rates CacheFile.absent now fetch) =
        Except.ok true ∧
      (fetch = FetchOutcome.failure →
        get_rates CacheFile.absent now fetch =
          Except.ok ⟨fallbackRates, CacheFile.absent, true⟩)) := by
  refine ⟨?_, ?_, ?_⟩
  · intro hf
    unfold get_rates
    dsimp only
    rw [if_pos hf]
  · intro hf
    unfold get_rates
    dsimp only
    rw [if_neg hf]
    exact ⟨by cases fetch <;> rfl, by rintro rfl; rfl⟩
  · exact ⟨by cases fetch <;> rfl, by rintro rfl; rfl⟩

theorem get_rates_cache_policy_witness :
    get_rates (CacheFile.valid 0 [("USD", 1)]) 100 FetchOutcome.failure =
      Except.ok ⟨[("USD", 1)], CacheFile.valid 0 [("USD", 1)], false⟩ ∧
    get_rates (CacheFile.valid 0 [("USD", 1)]) 90000 FetchOutcome.failure =
      Except.ok ⟨fallbackRates, CacheFile.valid 0 [("USD", 1)], true⟩ :=
  ⟨(get_rates_cache_policy 0 100 [("USD", 1)] FetchOutcome.failure).1
      (by norm_num),
    ((get_rates_cache_policy 0 90000 [("USD", 1)] FetchOutcome.failure).2.1
      (by norm_num)).2 rfl⟩

/-! ### The balance invariant over transaction sequences -/

theorem add_transaction_step_balance (s s1 : Store)
    (date note account category : String) (amount : ℚ) (t_type : String)
    (n : String) (a : AccountRow)
    (hty : t_type = "Income" ∨ t_type = "Expense")
    (hfind : s.accounts.find? (fun x => x.name == n) = some a)
    (hadd : add_transaction s date note account category amount t_type =
      Except.ok s1) :
    s1.accounts.find? (fun x => x.name == n) = some { a with balance :=
      a.balance + (if account == n && t_type == "Income" then amount else 0)
        - (if account == n && t_type == "Expense" then amount else 0) } := by
  unfold add_transaction at hadd
  rcases hacc : s.accounts.find? (fun x => x.name == account) with _ | acc
  · rw [hacc] at hadd
    exact Except.noConfusion hadd
  · rw [hacc] at hadd
    dsimp only at hadd
    rcases hty with rfl | rfl
    · rw [if_neg (by decide)] at hadd
      injection hadd with hadd
      subst hadd
      unfold commitTx
      by_cases haccn : account = n
      · subst haccn
        rw [hfind] at hacc
        injection hacc with hacc
        subst hacc
        rw [find_updateBalance_self s.accounts account (a.balance + amount) a hfind]
        simp
      · rw [find_updateBalance_other s.accounts account n (acc.balance + amount)
          (fun hc => haccn hc.symm)]
        rw [hfind]
        simp [haccn]
    · rw [if_pos (by decide)] at hadd
      by_cases hb : acc.balance - amount < 0
      · rw [if_pos hb] at hadd
        exact Except.noConfusion hadd
      · rw [if_neg hb] at hadd
        injection hadd with hadd
        subst hadd
        unfold commitTx
        by_cases haccn : account = n
        · subst haccn
          rw [hfind] at hacc
          injection hacc with hacc
          subst hacc
          rw [find_updateBalance_self s.accounts account (a.balance - amount) a hfind]
          simp
        · rw [find_updateBalance_other s.accounts account n (acc.balance - amount)
            (fun hc => haccn hc.symm)]
          rw [hfind]
          simp [haccn]

theorem incomeSum_cons (n : String) (r : TxRequest) (rs : List TxRequest) :
    incomeSum n (r :: rs) =
      (if r.account == n && r.t_type == "Income" then r.amount else 0) +
        incomeSum n rs := by
  unfold incomeSum
  rw [List.filter_cons]
  by_cases h : (r.account == n && r.t_type == "Income") = true
  · rw [if_pos h, if_pos h]
    simp
  · rw [if_neg h, if_neg h]
    simp

theorem expenseSum_cons (n : String) (r : TxRequest) (rs : List TxRequest) :
    expenseSum n (r :: rs) =
      (if r.account == n && r.t_type == "Expense" then r.amount else 0) +
        expenseSum n rs := by
  unfold expenseSum
  rw [List.filter_cons]
  by_cases h : (r.account == n && r.t_type == "Expense") = true
  · rw [if_pos h, if_pos h]
    simp
  · rw [if_neg h, if_neg h]
    simp

/-- Claim C1: after any sequence of `add_transaction` calls that all succeed
and all carry an Income or Expense type, the (first matching) account row's
balance equals its initial balance plus the sum of the Income amounts minus
the sum of the Expense amounts of the requests against that account. -/
theorem runTxs_balance (rs : List TxRequest) :
    ∀ (s s' : Store) (n : String) (a : AccountRow),
      (∀ r ∈ rs, r.t_type = "Income" ∨ r.t_type = "Expense") →
      s.accounts.find? (fun x => x.name == n) = some a →
      runTxs s rs = Except.ok s' →
      Option.map AccountRow.balance (s'.accounts.find? (fun x => x.name == n)) =
        some (a.balance + incomeSum n rs - expenseSum n rs) := by
  induction rs with
  | nil =>
    intro s s' n a hty hfind hrun
    injection hrun with hrun
    subst hrun
    rw [hfind]
    simp [incomeSum, expenseSum]
  | cons r rest ih =>
    intro s s' n a hty hfind hrun
    unfold runTxs at hrun
    rcases hadd : add_transaction s r.date r.note r.account r.category r.amount
        r.t_type with e | s1
    · rw [hadd] at hrun
      exact Except.noConfusion hrun
    · rw [hadd] at hrun
      dsimp only at hrun
      have hstep := add_transaction_step_balance s s1 r.date r.note r.account
        r.category r.amount r.t_type n a (hty r (List.mem_cons_self r rest))
        hfind hadd
      have hrest := ih s1 s' n _
        (fun x hx => hty x (List.mem_cons_of_mem r hx)) hstep hrun
      dsimp only at hrest
      rw [hrest, incomeSum_cons, expenseSum_cons]
      congr 1
      ring

theorem runTxs_balance_witness :
    Option.map AccountRow.balance
      ((commitTx ⟨[], [⟨"Cash", "Cash", "USD", 100⟩], []⟩
          "2025-01-01" "" "Cash" "Salary" 500 "Income" (100 + 500)).accounts.find?
        (fun x => x.name == "Cash")) =
      some (100 +
        incomeSum "Cash" [⟨"2025-01-01", "", "Cash", "Salary", 500, "Income"⟩] -
        expenseSum "Cash" [⟨"2025-01-01", "", "Cash", "Salary", 500, "Income"⟩]) :=
  runTxs_balance [⟨"2025-01-01", "", "Cash", "Salary", 500, "Income"⟩]
    ⟨[], [⟨"Cash", "Cash", "USD", 100⟩], []⟩
    (commitTx ⟨[], [⟨"Cash", "Cash", "USD", 100⟩], []⟩
      "2025-01-01" "" "Cash" "Salary" 500 "Income" (100 + 500))
    "Cash" ⟨"Cash", "Cash", "USD", 100⟩
    (by
      intro r hr
      rw [List.mem_singleton] at hr
      subst hr
      left
      rfl)
    rfl rfl
